import Mathlib

/-!
Verification of the numeric core of `070-Totient_permutation/plotplot.py`.

The script plots `n/a(n,k)` and `n/b(n,gap)` for semiprime totient
approximations.  Its three functions `a`, `p1p2`, `b` are closed-form real
arithmetic (Python floats are modelled exactly over `ℝ`); the top-level code
scans a list of gaps for the largest gap whose ratio stays below a reference
minimum.  Everything below is a direct shallow embedding of that code.
-/

open Classical

noncomputable section

/-- Python: `def a(n, k=2): return (n**(1/k) - 1)**k`.
The default argument `k=2` is supplied explicitly at call sites. -/
def a (n : ℝ) (k : ℝ) : ℝ := (n ^ (1/k) - 1) ^ k

/-- Python: `def p1p2(rt, k)`: with `b = 2*rt-k`,
`x = (-b + np.sqrt(b*b+4*k*rt))/2`, `y = k-x`, returns `(rt-y, rt+x)`. -/
def p1p2 (rt k : ℝ) : ℝ × ℝ :=
  let b := 2*rt - k
  let x := (-b + Real.sqrt (b*b + 4*k*rt)) / 2
  let y := k - x
  (rt - y, rt + x)

/-- Python: `def b(rt, gap): (p1, p2) = p1p2(rt, gap); return (p1-1)*(p2-1)`. -/
def b (rt gap : ℝ) : ℝ := ((p1p2 rt gap).1 - 1) * ((p1p2 rt gap).2 - 1)

/-- Python: `r75min = 7500000/b(np.sqrt(7500000), 0)`. -/
def r75min : ℝ := 7500000 / b (Real.sqrt 7500000) 0

/-- Python: `r50min = 5000000/b(np.sqrt(5000000), 0)`. -/
def r50min : ℝ := 5000000 / b (Real.sqrt 5000000) 0

/-- Python: `x = [gap for gap in range(0, 8000, 4)]`, the 2000 gaps scanned. -/
def xGaps : List ℝ := (List.range 2000).map (fun i : ℕ => 4 * (i:ℝ))

/-- Python: `rt = np.sqrt(n)` with `n = 10**7`. -/
def rtBig : ℝ := Real.sqrt (10^7)

/-- Python: `r = n/b(rt, k)`, the scanned ratio for `n = 10**7`. -/
def ratio10 (k : ℝ) : ℝ := 10^7 / b rtBig k

/-- The first scan's loop condition `r > r75min`. -/
def pr75 (k : ℝ) : Prop := ratio10 k > r75min

/-- The second scan's loop condition `r > r50min`. -/
def pr50 (k : ℝ) : Prop := ratio10 k > r50min

/-- Python: `for k in x: ... if r > rmin: ... break` — the first element of the
list satisfying `p` (the iteration at which the `if` fires and the `for` is
left), `none` when the loop runs out. -/
def findTrigger (p : ℝ → Prop) : List ℝ → Option ℝ
  | [] => none
  | k :: rest => if p k then some k else findTrigger p rest

/-- Python: `while r > rmin: k -= 2; r = n/b(rt, k)` — the backtracking loop,
with explicit fuel; any fuel at least the number of iterations the Python loop
performs yields the loop's exit value of `k`. -/
def backWhile (p : ℝ → Prop) : ℕ → ℝ → ℝ
  | 0, k => k
  | fuel + 1, k => if p k then backWhile p fuel (k - 2) else k

/-- One whole scan: find the triggering gap in the list, then backtrack by
steps of 2 while the ratio still exceeds the reference minimum. -/
def gapScan (p : ℝ → Prop) (l : List ℝ) (fuel : ℕ) : Option ℝ :=
  (findTrigger p l).map (backWhile p fuel)

/-- The `gap` found by the first loop (scanning `x` against `r75min`);
`none` corresponds to Python's `gap = None` surviving the loop. -/
def gap1 : Option ℝ := gapScan pr75 xGaps 4000

/-- The `gap` found by the second loop, which scans `x[gap//4:]` with `gap`
the first loop's result, against `r50min`. -/
def gap2 : Option ℝ := gap1.bind (fun g => gapScan pr50 (xGaps.drop (⌊g⌋.toNat / 4)) 4000)

/-- `np.sqrt` with its real domain made explicit: a negative argument is a
domain error, modelled as `none`. -/
def sqrtE (x : ℝ) : Option ℝ := if 0 ≤ x then some (Real.sqrt x) else none

/-- Python `x ** e`: a negative base together with a non-integral exponent is a
domain error, modelled as `none`. -/
def powE (x e : ℝ) : Option ℝ :=
  if x < 0 ∧ ¬ (∃ m : ℤ, e = (m:ℝ)) then none else some (x ^ e)

/-- `a` with domain errors propagated monadically: the code installs no
handler, so an error in a subterm is the value of the whole call. -/
def aE (n k : ℝ) : Option ℝ := (powE n (1/k)).bind (fun r => powE (r - 1) k)

/-- `p1p2` with domain errors propagated monadically. -/
def p1p2E (rt k : ℝ) : Option (ℝ × ℝ) :=
  (sqrtE ((2*rt - k)*(2*rt - k) + 4*k*rt)).bind
    (fun s => some (rt - (k - (-(2*rt - k) + s)/2), rt + (-(2*rt - k) + s)/2))

/-- `b` with domain errors propagated monadically. -/
def bE (rt gap : ℝ) : Option ℝ :=
  (p1p2E rt gap).bind (fun p => some ((p.1 - 1) * (p.2 - 1)))

/-- The process environment a script could in principle consult: command-line
arguments, environment variables, readable files. -/
structure ScriptEnv where
  argv : List String
  environ : List (String × String)
  fileContents : String → Option String

/-- Every numeric result the script computes: the two `n/a(n)` plot arrays,
the three `n/b(n,gap)` curves, the two reference minima, and the two gaps. -/
structure ScriptOut where
  plot1 : List (ℝ × ℝ)
  plot2 : List (ℝ × ℝ)
  plot3 : List (ℝ × List (ℝ × ℝ))
  r75 : ℝ
  r50 : ℝ
  g1 : Option ℝ
  g2 : Option ℝ

/-- The whole script as a function of its environment: `range(3, 100, 1)` and
`range(3, 10**7, 2)` feed the two `n/a(n)` plots, `xGaps` the `n/b(n,gap)`
curves; the environment is never consulted anywhere in the source. -/
def runScript (_env : ScriptEnv) : ScriptOut :=
  ⟨(List.range' 3 97 1).map (fun n : ℕ => ((n:ℝ), (n:ℝ) / a (n:ℝ) 2)),
   (List.range' 3 4999999 2).map (fun n : ℕ => ((n:ℝ), (n:ℝ) / a (n:ℝ) 2)),
   [(10:ℝ)^7, 7500000, 5000000].map
     (fun n => (n, xGaps.map (fun k => (k, n / b (Real.sqrt n) k)))),
   r75min, r50min, gap1, gap2⟩

/-- The argument of the square root inside `p1p2` simplifies to `4*rt^2 + k^2`. -/
lemma sqrt_arg_eq (rt k : ℝ) : (2*rt - k)*(2*rt - k) + 4*k*rt = 4*rt^2 + k^2 := by
  ring

/-- Closed form of the factor pair: `p1p2 rt k = ((s-k)/2, (s+k)/2)` with
`s = sqrt (4*rt^2 + k^2)`. -/
lemma p1p2_closed (rt k : ℝ) :
    p1p2 rt k = ((Real.sqrt (4*rt^2 + k^2) - k)/2, (Real.sqrt (4*rt^2 + k^2) + k)/2) := by
  simp only [p1p2]
  rw [sqrt_arg_eq]
  exact Prod.ext (by ring) (by ring)

/-- Closed form of `b`: `b rt k = rt^2 + 1 - sqrt (4*rt^2 + k^2)`. -/
lemma b_closed (rt k : ℝ) : b rt k = rt^2 + 1 - Real.sqrt (4*rt^2 + k^2) := by
  have hnn : (0:ℝ) ≤ 4*rt^2 + k^2 := by positivity
  have hs : Real.sqrt (4*rt^2 + k^2) ^ 2 = 4*rt^2 + k^2 := Real.sq_sqrt hnn
  rw [b, p1p2_closed]
  dsimp only
  linear_combination hs / 4

/-- `b` at the square root of `n`: `b (sqrt n) k = n + 1 - sqrt (4*n + k^2)`. -/
lemma b_sqrt (n k : ℝ) (hn : 0 ≤ n) :
    b (Real.sqrt n) k = n + 1 - Real.sqrt (4*n + k^2) := by
  rw [b_closed, Real.sq_sqrt hn]

/-- Bounding a square root above by squaring. -/
lemma sqrt_le_of_sq {x y : ℝ} (hy : 0 ≤ y) (h : x ≤ y^2) : Real.sqrt x ≤ y := by
  calc Real.sqrt x ≤ Real.sqrt (y^2) := Real.sqrt_le_sqrt h
  _ = y := Real.sqrt_sq hy

/-- Bounding a square root below by squaring. -/
lemma le_sqrt_of_sq {x y : ℝ} (hx : 0 ≤ x) (h : x^2 ≤ y) : x ≤ Real.sqrt y := by
  calc x = Real.sqrt (x^2) := (Real.sqrt_sq hx).symm
  _ ≤ Real.sqrt y := Real.sqrt_le_sqrt h

/-- A real power with exponent `2` is the natural square. -/
lemma rpow_two_eq (x : ℝ) : x ^ (2:ℝ) = x ^ (2:ℕ) := by
  rw [show (2:ℝ) = ((2:ℕ):ℝ) from by norm_num, Real.rpow_natCast]

/-- C1: for all reals `rt >= 0` and `k >= 0`, the pair `(p1, p2)` returned by
`p1p2 rt k` satisfies `p1 * p2 = rt^2` and `p2 - p1 = k`, exactly over `ℝ`. -/
theorem p1p2_product_and_gap (rt k : ℝ) (_hrt : 0 ≤ rt) (_hk : 0 ≤ k) :
    (p1p2 rt k).1 * (p1p2 rt k).2 = rt^2 ∧ (p1p2 rt k).2 - (p1p2 rt k).1 = k := by
  have hnn : (0:ℝ) ≤ 4*rt^2 + k^2 := by positivity
  have hs : Real.sqrt (4*rt^2 + k^2) ^ 2 = 4*rt^2 + k^2 := Real.sq_sqrt hnn
  rw [p1p2_closed]
  constructor
  · dsimp only
    linear_combination hs / 4
  · dsimp only
    ring

theorem p1p2_product_and_gap_witness :
    (0 ≤ (3:ℝ) ∧ 0 ≤ (2:ℝ)) ∧
      ((p1p2 3 2).1 * (p1p2 3 2).2 = (3:ℝ)^2 ∧ (p1p2 3 2).2 - (p1p2 3 2).1 = 2) :=
  ⟨⟨by norm_num, by norm_num⟩, p1p2_product_and_gap 3 2 (by norm_num) (by norm_num)⟩

/-- C3: for every real `n >= 0` and nonzero `k`, `a n k` equals the closed
form `(n^(1/k) - 1)^k`. -/
theorem a_closed_form (n k : ℝ) (_hn : 0 ≤ n) (_hk : k ≠ 0) :
    a n k = (n ^ (1/k) - 1) ^ k := rfl

theorem a_closed_form_witness :
    (0 ≤ (100:ℝ) ∧ (2:ℝ) ≠ 0) ∧ a 100 2 = ((100:ℝ) ^ (1/(2:ℝ)) - 1) ^ (2:ℝ) :=
  ⟨⟨by norm_num, by norm_num⟩, a_closed_form 100 2 (by norm_num) (by norm_num)⟩

/-- C4: for all reals `rt >= 0` and `gap >= 0`, `b rt gap` equals
`(p1 - 1) * (p2 - 1)` where `(p1, p2) = p1p2 rt gap`. -/
theorem b_from_p1p2 (rt gap : ℝ) (_hrt : 0 ≤ rt) (_hgap : 0 ≤ gap) :
    b rt gap = ((p1p2 rt gap).1 - 1) * ((p1p2 rt gap).2 - 1) := rfl

theorem b_from_p1p2_witness :
    (0 ≤ (3:ℝ) ∧ 0 ≤ (2:ℝ)) ∧ b 3 2 = ((p1p2 3 2).1 - 1) * ((p1p2 3 2).2 - 1) :=
  ⟨⟨by norm_num, by norm_num⟩, b_from_p1p2 3 2 (by norm_num) (by norm_num)⟩

/-- `a n 2` in terms of the square root: `(sqrt n - 1)^2`. -/
lemma a_as_sq (n : ℝ) : a n 2 = (Real.sqrt n - 1)^2 := by
  rw [a, ← Real.sqrt_eq_rpow, rpow_two_eq]

/-- C5: `a 100 2 = 81`, i.e. `(100^(1/2) - 1)^2 = 9^2 = 81`. -/
theorem a_100_eq_81 : a 100 2 = 81 := by
  have h100 : ((100:ℝ) ^ ((1:ℝ)/2)) = 10 := by
    rw [← Real.sqrt_eq_rpow]
    rw [show (100:ℝ) = 10^2 from by norm_num, Real.sqrt_sq (by norm_num : (0:ℝ) ≤ 10)]
  rw [a, h100]
  rw [show (10:ℝ) - 1 = 9 from by norm_num, rpow_two_eq]
  norm_num

/-- C9: at gap zero the two approximation families agree: `p1p2 rt 0 = (rt, rt)`
for `rt >= 0`, hence `b (sqrt n) 0 = (sqrt n - 1)^2 = a n 2` for `n >= 0`. -/
theorem gap_zero_identity :
    (∀ rt : ℝ, 0 ≤ rt → p1p2 rt 0 = (rt, rt)) ∧
    (∀ n : ℝ, 0 ≤ n →
      b (Real.sqrt n) 0 = (Real.sqrt n - 1)^2 ∧ b (Real.sqrt n) 0 = a n 2) := by
  have hsq4 : Real.sqrt 4 = 2 := by
    rw [show (4:ℝ) = 2^2 from by norm_num, Real.sqrt_sq (by norm_num : (0:ℝ) ≤ 2)]
  constructor
  · intro rt hrt
    rw [p1p2_closed]
    have h2rt : Real.sqrt (4*rt^2 + 0^2) = 2*rt := by
      rw [show 4*rt^2 + (0:ℝ)^2 = (2*rt)^2 from by ring,
        Real.sqrt_sq (by linarith : (0:ℝ) ≤ 2*rt)]
    rw [h2rt]
    exact Prod.ext (by norm_num) (by norm_num)
  · intro n hn
    have h4 : Real.sqrt (4*n + 0^2) = 2 * Real.sqrt n := by
      rw [show (4:ℝ)*n + 0^2 = 4*n from by ring,
        Real.sqrt_mul (by norm_num : (0:ℝ) ≤ 4), hsq4]
    have hs : Real.sqrt n ^ 2 = n := Real.sq_sqrt hn
    have hb : b (Real.sqrt n) 0 = (Real.sqrt n - 1)^2 := by
      rw [b_sqrt n 0 hn, h4]
      linear_combination (-1 : ℝ) * hs
    exact ⟨hb, by rw [hb, a_as_sq]⟩

theorem gap_zero_identity_witness :
    (0 ≤ (2:ℝ) ∧ p1p2 2 0 = (2, 2)) ∧
    (0 ≤ (4:ℝ) ∧
      (b (Real.sqrt 4) 0 = (Real.sqrt 4 - 1)^2 ∧ b (Real.sqrt 4) 0 = a 4 2)) :=
  ⟨⟨by norm_num, gap_zero_identity.1 2 (by norm_num)⟩,
   ⟨by norm_num, gap_zero_identity.2 4 (by norm_num)⟩⟩

/-- A square is monotone from above on nonnegative reals. -/
lemma sq_mono_le {x M : ℝ} (h0 : 0 ≤ x) (h1 : x ≤ M) : x^2 ≤ M^2 := by nlinarith

/-- A square is monotone from below on nonnegative reals. -/
lemma sq_mono_ge {x M : ℝ} (h0 : 0 ≤ M) (h1 : M ≤ x) : M^2 ≤ x^2 := by nlinarith

/-- C8: every partial numeric operation the script evaluates is within its
domain: the square-root argument in `p1p2` equals `4*rt^2 + k^2` and is
nonnegative; `a n 2 > 0` for `n >= 3`, so the divisions `n/a(n)` are defined;
and `b (sqrt n) k > 0` for the three plotted `n` and every gap in `[0, 7996]`,
so the divisions `n/b(rt, k)` are defined. -/
theorem domain_safety :
    (∀ rt k : ℝ, (2*rt - k)*(2*rt - k) + 4*k*rt = 4*rt^2 + k^2 ∧
        0 ≤ (2*rt - k)*(2*rt - k) + 4*k*rt) ∧
    (∀ n : ℝ, 3 ≤ n → 0 < a n 2) ∧
    (∀ n k : ℝ, (n = 5000000 ∨ n = 7500000 ∨ n = 10^7) → 0 ≤ k → k ≤ 7996 →
        0 < b (Real.sqrt n) k) := by
  refine ⟨fun rt k => ⟨sqrt_arg_eq rt k, ?_⟩, ?_, ?_⟩
  · rw [sqrt_arg_eq]; positivity
  · intro n hn
    have h1 : (1:ℝ) < Real.sqrt n := by
      have h := Real.sqrt_lt_sqrt (by norm_num : (0:ℝ) ≤ 1) (by linarith : (1:ℝ) < n)
      rwa [Real.sqrt_one] at h
    rw [a_as_sq]
    have : (0:ℝ) < Real.sqrt n - 1 := by linarith
    positivity
  · intro n k hn hk0 hk1
    have hn0 : 0 ≤ n := by rcases hn with h|h|h <;> rw [h] <;> norm_num
    rw [b_sqrt n k hn0]
    have hk2 : k^2 ≤ 7996^2 := sq_mono_le hk0 hk1
    have hs : Real.sqrt (4*n + k^2) ≤ 10200 := by
      apply sqrt_le_of_sq (by norm_num)
      rcases hn with h|h|h <;> rw [h] <;> nlinarith
    rcases hn with h|h|h <;> rw [h] at hs ⊢ <;> norm_num at hs ⊢ <;> linarith

theorem domain_safety_witness :
    (3 ≤ (3:ℝ) ∧ 0 < a 3 2) ∧
    (((5000000:ℝ) = 5000000 ∨ (5000000:ℝ) = 7500000 ∨ (5000000:ℝ) = 10^7) ∧
      0 ≤ (0:ℝ) ∧ (0:ℝ) ≤ 7996 ∧ 0 < b (Real.sqrt 5000000) 0) :=
  ⟨⟨le_refl 3, domain_safety.2.1 3 (le_refl 3)⟩,
   ⟨Or.inl rfl, le_refl 0, by norm_num,
     domain_safety.2.2 5000000 0 (Or.inl rfl) (le_refl 0) (by norm_num)⟩⟩

/-- C10 counterexample: the ratio `n/b(rt, gap)` with `n = rt^2` is NOT
strictly increasing on all of `gap >= 0`: at `rt = 2` the denominator
`b 2 gap = 5 - sqrt (16 + gap^2)` turns negative (e.g. at `gap = 10`), and
there the ratio is below its gap-zero value. -/
theorem ratio_monotone_counterexample :
    ¬ (∀ rt : ℝ, 1 < rt → ∀ g1 g2 : ℝ, 0 ≤ g1 → g1 < g2 →
        rt^2 / b rt g1 < rt^2 / b rt g2) := by
  intro h
  have h2 := h 2 (by norm_num) 0 10 (le_refl 0) (by norm_num)
  have h16 : Real.sqrt 16 = 4 := by
    rw [show (16:ℝ) = 4^2 from by norm_num, Real.sqrt_sq (by norm_num : (0:ℝ) ≤ 4)]
  have hb0 : b 2 0 = 1 := by
    rw [b_closed]
    norm_num [h16]
  have hb10 : b 2 10 < 0 := by
    rw [b_closed]
    have h105 : (21/2:ℝ) ≤ Real.sqrt 116 := le_sqrt_of_sq (by norm_num) (by norm_num)
    norm_num
    linarith
  rw [hb0] at h2
  have hneg : (2:ℝ)^2 / b 2 10 < 0 := div_neg_of_pos_of_neg (by norm_num) hb10
  norm_num at h2
  linarith

/-- C10 (amended): for `rt > 1` and `0 <= g1 < g2`, `b rt g2 < b rt g1`
unconditionally (so `b` is strictly decreasing in the gap on all of
`gap >= 0`), and whenever `b rt g2` is still positive the ratio
`rt^2 / b rt gap` is strictly increasing, which is what makes the scans'
first crossing plus step-2 backtrack identify the unique threshold gap. -/
theorem ratio_strict_mono_while_positive (rt g1 g2 : ℝ) (hrt : 1 < rt)
    (hg1 : 0 ≤ g1) (hlt : g1 < g2) :
    b rt g2 < b rt g1 ∧ (0 < b rt g2 → rt^2 / b rt g1 < rt^2 / b rt g2) := by
  have hdec : b rt g2 < b rt g1 := by
    rw [b_closed, b_closed]
    have hmono : Real.sqrt (4*rt^2 + g1^2) < Real.sqrt (4*rt^2 + g2^2) := by
      apply Real.sqrt_lt_sqrt (by positivity)
      nlinarith
    linarith
  have hrt2 : (0:ℝ) < rt^2 := pow_pos (by linarith) 2
  exact ⟨hdec, fun hpos => div_lt_div_of_pos_left hrt2 hpos hdec⟩

theorem ratio_strict_mono_while_positive_witness :
    (1 < (2:ℝ) ∧ 0 ≤ (0:ℝ) ∧ (0:ℝ) < 1 ∧ 0 < b 2 1) ∧
    (b 2 1 < b 2 0 ∧ (2:ℝ)^2 / b 2 0 < (2:ℝ)^2 / b 2 1) := by
  have hb1 : 0 < b 2 1 := by
    rw [b_closed]
    have h45 : Real.sqrt 17 ≤ 9/2 := sqrt_le_of_sq (by norm_num) (by norm_num)
    norm_num
    linarith
  have h := ratio_strict_mono_while_positive 2 0 1 (by norm_num) (le_refl 0) (by norm_num)
  exact ⟨⟨by norm_num, le_refl 0, by norm_num, hb1⟩, ⟨h.1, h.2 hb1⟩⟩

/-- C6: no error handling anywhere: a domain error in a numeric primitive is
the result of the whole call.  A negative base under the fractional power in
`a` makes `aE` error out, and `p1p2E` errors exactly when its square root
does, `bE` exactly when `p1p2E` does — no function catches anything. -/
theorem error_propagation :
    (∀ n k : ℝ, n < 0 → ¬ (∃ m : ℤ, 1/k = (m:ℝ)) → aE n k = none) ∧
    (∀ rt g : ℝ,
      (p1p2E rt g = none ↔ sqrtE ((2*rt - g)*(2*rt - g) + 4*g*rt) = none) ∧
      (bE rt g = none ↔ p1p2E rt g = none)) := by
  constructor
  · intro n k hn hk
    have hpow : powE n (1/k) = none := by rw [powE, if_pos ⟨hn, hk⟩]
    rw [aE, hpow]
    rfl
  · intro rt g
    constructor
    · rw [p1p2E]
      cases hs : sqrtE ((2*rt - g)*(2*rt - g) + 4*g*rt) with
      | none => simp
      | some s => simp
    · rw [bE]
      cases hp : p1p2E rt g with
      | none => simp
      | some p => simp

theorem error_propagation_witness :
    ((-1:ℝ) < 0 ∧ ¬ (∃ m : ℤ, 1/(2:ℝ) = (m:ℝ))) ∧ aE (-1) 2 = none := by
  have hk : ¬ (∃ m : ℤ, 1/(2:ℝ) = (m:ℝ)) := by
    rintro ⟨m, hm⟩
    have h2 : ((2*m : ℤ) : ℝ) = 1 := by push_cast; linarith
    have h3 : (2*m : ℤ) = 1 := by exact_mod_cast h2
    omega
  exact ⟨⟨by norm_num, hk⟩, error_propagation.1 (-1) 2 (by norm_num) hk⟩

/-- The scanned ratio in closed form. -/
lemma ratio10_eq (k : ℝ) :
    ratio10 k = 10000000 / (10000001 - Real.sqrt (40000000 + k^2)) := by
  rw [ratio10, rtBig, b_sqrt _ k (by norm_num : (0:ℝ) ≤ 10^7)]
  norm_num

/-- The first reference minimum in closed form. -/
lemma r75min_eq : r75min = 7500000 / (7500001 - Real.sqrt 30000000) := by
  rw [r75min, b_sqrt 7500000 0 (by norm_num)]
  norm_num

/-- The second reference minimum in closed form. -/
lemma r50min_eq : r50min = 5000000 / (5000001 - Real.sqrt 20000000) := by
  rw [r50min, b_sqrt 5000000 0 (by norm_num)]
  norm_num

lemma s30_lb : (27386/5:ℝ) ≤ Real.sqrt 30000000 :=
  le_sqrt_of_sq (by norm_num) (by norm_num)

lemma s30_ub : Real.sqrt 30000000 ≤ 547723/100 :=
  sqrt_le_of_sq (by norm_num) (by norm_num)

lemma s20_lb : (447213/100:ℝ) ≤ Real.sqrt 20000000 :=
  le_sqrt_of_sq (by norm_num) (by norm_num)

lemma s20_ub : Real.sqrt 20000000 ≤ 223607/50 :=
  sqrt_le_of_sq (by norm_num) (by norm_num)

lemma den75_pos : 0 < 7500001 - Real.sqrt 30000000 := by
  have h := s30_ub
  linarith

lemma den50_pos : 0 < 5000001 - Real.sqrt 20000000 := by
  have h := s20_ub
  linarith

lemma den10_pos (k : ℝ) (h0 : 0 ≤ k) (h1 : k ≤ 7996) :
    0 < 10000001 - Real.sqrt (40000000 + k^2) := by
  have hk2 : k^2 ≤ 63936016 := by
    have h := sq_mono_le h0 h1
    norm_num at h
    exact h
  have hs : Real.sqrt (40000000 + k^2) ≤ 10200 := by
    apply sqrt_le_of_sq (by norm_num)
    norm_num
    linarith
  linarith

/-- Gaps up to 3650 keep the ratio at or below the first reference minimum. -/
lemma ratio_le_r75 (k : ℝ) (h0 : 0 ≤ k) (h1 : k ≤ 3650) : ratio10 k ≤ r75min := by
  rw [ratio10_eq, r75min_eq]
  have hden := den10_pos k h0 (by linarith)
  have hk2 : k^2 ≤ 13322500 := by
    have h := sq_mono_le h0 h1
    norm_num at h
    exact h
  have hs : Real.sqrt (40000000 + k^2) ≤ 730223/100 := by
    apply sqrt_le_of_sq (by norm_num)
    norm_num
    linarith
  rw [div_le_div_iff₀ hden den75_pos]
  have h30 := s30_lb
  linarith

/-- Gaps from 3652 up push the ratio above the first reference minimum. -/
lemma r75_lt_ratio (k : ℝ) (h0 : 3652 ≤ k) (h1 : k ≤ 7996) : r75min < ratio10 k := by
  rw [ratio10_eq, r75min_eq]
  have hden := den10_pos k (by linarith) h1
  have hk2 : (13337104:ℝ) ≤ k^2 := by
    have h := sq_mono_ge (show (0:ℝ) ≤ 3652 from by norm_num) h0
    norm_num at h
    exact h
  have hs : (36516/5:ℝ) ≤ Real.sqrt (40000000 + k^2) := by
    apply le_sqrt_of_sq (by norm_num)
    norm_num
    linarith
  rw [div_lt_div_iff₀ den75_pos hden]
  have h30 := s30_ub
  linarith

/-- Gaps up to 6322 keep the ratio at or below the second reference minimum. -/
lemma ratio_le_r50 (k : ℝ) (h0 : 0 ≤ k) (h1 : k ≤ 6322) : ratio10 k ≤ r50min := by
  rw [ratio10_eq, r50min_eq]
  have hden := den10_pos k h0 (by linarith)
  have hk2 : k^2 ≤ 39967684 := by
    have h := sq_mono_le h0 h1
    norm_num at h
    exact h
  have hs : Real.sqrt (40000000 + k^2) ≤ 17885/2 := by
    apply sqrt_le_of_sq (by norm_num)
    norm_num
    linarith
  rw [div_le_div_iff₀ hden den50_pos]
  have h20 := s20_lb
  linarith

/-- Gaps from 6324 up push the ratio above the second reference minimum. -/
lemma r50_lt_ratio (k : ℝ) (h0 : 6324 ≤ k) (h1 : k ≤ 7996) : r50min < ratio10 k := by
  rw [ratio10_eq, r50min_eq]
  have hden := den10_pos k (by linarith) h1
  have hk2 : (39992976:ℝ) ≤ k^2 := by
    have h := sq_mono_ge (show (0:ℝ) ≤ 6324 from by norm_num) h0
    norm_num at h
    exact h
  have hs : (44719/5:ℝ) ≤ Real.sqrt (40000000 + k^2) := by
    apply le_sqrt_of_sq (by norm_num)
    norm_num
    linarith
  rw [div_lt_div_iff₀ den50_pos hden]
  have h20 := s20_ub
  linarith

lemma findTrigger_cons (p : ℝ → Prop) (k : ℝ) (l : List ℝ) :
    findTrigger p (k :: l) = if p k then some k else findTrigger p l := rfl

lemma findTrigger_append (p : ℝ → Prop) (l1 l2 : List ℝ)
    (h : ∀ x ∈ l1, ¬ p x) : findTrigger p (l1 ++ l2) = findTrigger p l2 := by
  induction l1 with
  | nil => rfl
  | cons x xs ih =>
    rw [List.cons_append, findTrigger_cons, if_neg (h x (List.mem_cons_self x xs))]
    exact ih (fun y hy => h y (List.mem_cons_of_mem x hy))

lemma backWhile_pos (p : ℝ → Prop) (f : ℕ) (k : ℝ) (h : p k) :
    backWhile p (f+1) k = backWhile p f (k - 2) := by
  simp only [backWhile]
  exact if_pos h

lemma backWhile_neg (p : ℝ → Prop) (f : ℕ) (k : ℝ) (h : ¬ p k) :
    backWhile p (f+1) k = k := by
  simp only [backWhile]
  exact if_neg h

lemma pr75_3652 : pr75 3652 := r75_lt_ratio 3652 le_rfl (by norm_num)

lemma not_pr75_3650 : ¬ pr75 3650 := not_lt.2 (ratio_le_r75 3650 (by norm_num) le_rfl)

lemma pr50_6324 : pr50 6324 := r50_lt_ratio 6324 le_rfl (by norm_num)

lemma not_pr50_6322 : ¬ pr50 6322 := not_lt.2 (ratio_le_r50 6322 (by norm_num) le_rfl)

/-- The first `for` loop breaks at `k = 3652`, the first multiple of 4 whose
ratio exceeds `r75min`. -/
lemma findTrigger75 : findTrigger pr75 xGaps = some 3652 := by
  have hsplit : xGaps = ((List.range 913).map (fun i : ℕ => 4 * (i:ℝ))) ++
      ((List.range 1087).map (fun i : ℕ => 4 * ((913 + i : ℕ):ℝ))) := by
    rw [xGaps, show (2000:ℕ) = 913 + 1087 from by norm_num, List.range_add,
      List.map_append, List.map_map]
    rfl
  have hfirst : ∀ x ∈ (List.range 913).map (fun i : ℕ => 4 * (i:ℝ)), ¬ pr75 x := by
    intro x hx
    rcases List.mem_map.1 hx with ⟨i, hi, rfl⟩
    have hi' : i ≤ 912 := Nat.lt_succ_iff.1 (List.mem_range.1 hi)
    have h0 : (0:ℝ) ≤ 4*(i:ℝ) := by positivity
    have h1 : (4:ℝ)*(i:ℝ) ≤ 3650 := by
      have hc : (i:ℝ) ≤ 912 := by exact_mod_cast hi'
      linarith
    exact not_lt.2 (ratio_le_r75 _ h0 h1)
  rw [hsplit, findTrigger_append _ _ _ hfirst]
  rw [show (1087:ℕ) = 1 + 1086 from by norm_num, List.range_add, List.map_append,
    List.map_map, show (List.range 1) = [0] from by decide, List.map_cons, List.map_nil,
    List.singleton_append, findTrigger_cons]
  have he : (4 * ((913 + 0 : ℕ):ℝ)) = 3652 := by norm_num
  rw [he, if_pos pr75_3652]

/-- The first scan ends with `gap = 3650`. -/
lemma gap1_eq : gap1 = some 3650 := by
  rw [gap1, gapScan, findTrigger75, Option.map_some']
  have hb : backWhile pr75 4000 3652 = 3650 := by
    rw [show (4000:ℕ) = 3999 + 1 from by norm_num, backWhile_pos _ _ _ pr75_3652,
      show (3652:ℝ) - 2 = 3650 from by norm_num,
      show (3999:ℕ) = 3998 + 1 from by norm_num, backWhile_neg _ _ _ not_pr75_3650]
  rw [hb]

/-- The second `for` loop runs over `x[912:]` and breaks at `k = 6324`. -/
lemma findTrigger50 :
    findTrigger pr50 (xGaps.drop 912) = some 6324 := by
  have hdrop : xGaps.drop 912 = (List.range 1088).map (fun i : ℕ => 4 * ((912 + i : ℕ):ℝ)) := by
    rw [xGaps, show (2000:ℕ) = 912 + 1088 from by norm_num, List.range_add,
      List.map_append, List.map_map]
    have hlen : ((List.range 912).map (fun i : ℕ => 4 * (i:ℝ))).length = 912 := by simp
    rw [List.drop_left' hlen]
    rfl
  have hsplit : (List.range 1088).map (fun i : ℕ => 4 * ((912 + i : ℕ):ℝ)) =
      ((List.range 669).map (fun i : ℕ => 4 * ((912 + i : ℕ):ℝ))) ++
      ((List.range 419).map (fun i : ℕ => 4 * ((912 + (669 + i) : ℕ):ℝ))) := by
    rw [show (1088:ℕ) = 669 + 419 from by norm_num, List.range_add, List.map_append,
      List.map_map]
    rfl
  have hfirst : ∀ x ∈ (List.range 669).map (fun i : ℕ => 4 * ((912 + i : ℕ):ℝ)), ¬ pr50 x := by
    intro x hx
    rcases List.mem_map.1 hx with ⟨i, hi, rfl⟩
    have hi' : i ≤ 668 := Nat.lt_succ_iff.1 (List.mem_range.1 hi)
    have h0 : (0:ℝ) ≤ 4*((912 + i : ℕ):ℝ) := by positivity
    have h1 : (4:ℝ)*((912 + i : ℕ):ℝ) ≤ 6322 := by
      have hc : ((912 + i : ℕ):ℝ) ≤ 1580 := by exact_mod_cast Nat.add_le_add_left hi' 912
      linarith
    exact not_lt.2 (ratio_le_r50 _ h0 h1)
  rw [hdrop, hsplit, findTrigger_append _ _ _ hfirst]
  rw [show (419:ℕ) = 1 + 418 from by norm_num, List.range_add, List.map_append,
    List.map_map, show (List.range 1) = [0] from by decide, List.map_cons, List.map_nil,
    List.singleton_append, findTrigger_cons]
  have he : (4 * ((912 + (669 + 0) : ℕ):ℝ)) = 6324 := by norm_num
  rw [he, if_pos pr50_6324]

/-- The second scan ends with `gap = 6322`. -/
lemma gap2_eq : gap2 = some 6322 := by
  rw [gap2, gap1_eq, Option.some_bind]
  have hfl : (⌊(3650:ℝ)⌋.toNat / 4) = 912 := by
    rw [show (3650:ℝ) = ((3650:ℤ):ℝ) from by norm_num, Int.floor_intCast]
    decide
  rw [hfl, gapScan, findTrigger50, Option.map_some']
  have hb : backWhile pr50 4000 6324 = 6322 := by
    rw [show (4000:ℕ) = 3999 + 1 from by norm_num, backWhile_pos _ _ _ pr50_6324,
      show (6324:ℝ) - 2 = 6322 from by norm_num,
      show (3999:ℕ) = 3998 + 1 from by norm_num, backWhile_neg _ _ _ not_pr50_6322]
  rw [hb]

/-- C2: both scans terminate, with `gap = 3650` against `r75min` and
`gap = 6322` against `r50min`; each found gap is the largest even gap in
`[0, 7996]` whose ratio does not exceed the reference minimum: the ratio at
the gap stays at or below the minimum, at `gap + 2` it exceeds it, and every
larger even gap in range exceeds it too. -/
theorem scan_gaps :
    gap1 = some 3650 ∧ gap2 = some 6322 ∧
    ratio10 3650 ≤ r75min ∧ r75min < ratio10 3652 ∧
    ratio10 6322 ≤ r50min ∧ r50min < ratio10 6324 ∧
    (∀ m : ℕ, 3650 < 2*m → 2*m ≤ 7996 → r75min < ratio10 (2*(m:ℝ))) ∧
    (∀ m : ℕ, 6322 < 2*m → 2*m ≤ 7996 → r50min < ratio10 (2*(m:ℝ))) := by
  refine ⟨gap1_eq, gap2_eq, ratio_le_r75 3650 (by norm_num) le_rfl,
    r75_lt_ratio 3652 le_rfl (by norm_num),
    ratio_le_r50 6322 (by norm_num) le_rfl,
    r50_lt_ratio 6324 le_rfl (by norm_num), ?_, ?_⟩
  · intro m h1 h2
    have h3 : 3652 ≤ 2*m := by omega
    have hr : (3652:ℝ) ≤ 2*(m:ℝ) := by exact_mod_cast h3
    have hr2 : 2*(m:ℝ) ≤ 7996 := by exact_mod_cast h2
    exact r75_lt_ratio _ hr hr2
  · intro m h1 h2
    have h3 : 6324 ≤ 2*m := by omega
    have hr : (6324:ℝ) ≤ 2*(m:ℝ) := by exact_mod_cast h3
    have hr2 : 2*(m:ℝ) ≤ 7996 := by exact_mod_cast h2
    exact r50_lt_ratio _ hr hr2

theorem scan_gaps_witness :
    (3650 < 2*1826 ∧ 2*1826 ≤ 7996) ∧ r75min < ratio10 (2*((1826:ℕ):ℝ)) :=
  ⟨⟨by norm_num, by norm_num⟩,
    scan_gaps.2.2.2.2.2.2.1 1826 (by norm_num) (by norm_num)⟩

/-- C7: the script takes no input: every numeric result (the plotted arrays,
`r75min`, `r50min` and both gaps) is a constant of the source, so any two runs
— under any command-line arguments, environment variables or file system —
compute identical values. -/
theorem script_deterministic : ∀ e1 e2 : ScriptEnv, runScript e1 = runScript e2 :=
  fun _ _ => rfl

end
